import Mathlib

/-!
Shallow embedding of the publik server core (src/main.rs): the identity
registry and session-state maps of `AppServer`, the authentication gate,
the reload coordinator, message submission, resize handling, session
teardown and history rendering, together with proofs of the specified
properties. HashMaps and HashSets are modelled as association lists and
lists; the indexing panics of the source are modelled by `none` or a
dedicated outcome; the transport handle is external and a close oracle
stands in for `Handle::close`.
-/

/-- Permission tier of an entity. `Admin` is the elevated tier the code
compares against (`authfile::Role::Admin`); the spec calls it Elevated. -/
inductive Role
  | Standard
  | Admin
  deriving DecidableEq

/-- Modelled from the spec: `Entity` lives in the `authfile` module, which
is not under src/. An immutable value holding a name, a role and
byte-comparable public-key material; the key material is modelled as a
natural number. `key_data` plays the part of `Entity::key_data()`. -/
structure Entity where
  name : String
  role : Role
  key_data : Nat
  deriving DecidableEq

/-- Modelled from the spec: the errors of reading the backing store
(`StoreUnavailable` / `StoreMalformed`). -/
inductive StoreError
  | unavailable
  | malformed
  deriving DecidableEq

/-- Modelled from the spec: the result of `authfile::read` (not under
src/) — the entities parsed from the backing store together with the key
pool, the set of all known keys. -/
structure Keychain where
  entities : List Entity
  key_pool : List Nat
  deriving DecidableEq

/-- A live session's record (struct `Client` in main.rs): its channel id,
the textarea input buffer (as its lines) and the terminal viewport size.
The transport `handle` is external; whether `handle.close` succeeds is
supplied to `reload` as an oracle indexed by session id. -/
structure Client where
  channel : Nat
  textarea : List String
  viewport : Nat × Nat
  deriving DecidableEq

/-- The shared state of `AppServer` together with `App`: the registry
snapshot (`keychain`, `key_data_pool`, `key_data_to_user`), the reverse
index `key_data_to_id`, the session bindings `id_to_user`, the session
table `clients`, and the chat `history`. -/
structure AppState where
  keychain : List Entity
  key_data_pool : List Nat
  key_data_to_user : List (Nat × Entity)
  key_data_to_id : List (Nat × List Nat)
  id_to_user : List (Nat × Entity)
  clients : List (Nat × Client)
  history : List String
  deriving DecidableEq

/-- `HashMap::get` on an association-list map. -/
def lookupK {α : Type} (k : Nat) : List (Nat × α) → Option α
  | [] => none
  | (k', v) :: rest => if k' = k then some v else lookupK k rest

/-- `HashMap::remove` on an association-list map. -/
def eraseK {α : Type} (k : Nat) (l : List (Nat × α)) : List (Nat × α) :=
  l.filter (fun p => p.1 ≠ k)

/-- `HashMap::insert` on an association-list map: replaces any previous
binding of the key. -/
def insertK {α : Type} (k : Nat) (v : α) (l : List (Nat × α)) : List (Nat × α) :=
  (k, v) :: eraseK k l

/-- `russh::server::Auth`, restricted to the two values the handler
produces. -/
inductive Auth
  | Accept
  | Reject
  deriving DecidableEq

/-- `Handler::auth_publickey` (main.rs:307-324): look the offered key up in
`key_data_to_user`; when found, record `id → Entity` in `id_to_user` and
append the id to the reverse index entry of that key
(`entry().or_default().push(id)`), returning accept; when not found,
return reject and change nothing. -/
def auth_publickey (s : AppState) (id : Nat) (key : Nat) : Auth × AppState :=
  match lookupK key s.key_data_to_user with
  | some e =>
      (Auth.Accept,
        { s with
          id_to_user := insertK id e s.id_to_user
          key_data_to_id :=
            insertK key (((lookupK key s.key_data_to_id).getD []) ++ [id])
              s.key_data_to_id })
  | none => (Auth.Reject, s)

/-- `AppServer::entity` (main.rs:184-186): indexes `id_to_user` by the
session's id. The source indexing panics when the id is absent; that case
is `none`. -/
def entity (s : AppState) (id : Nat) : Option Entity :=
  lookupK id s.id_to_user

/-- The Debug rendering of a role, as `{:?}` shows it. -/
def roleDebug : Role → String
  | Role.Standard => "Standard"
  | Role.Admin => "Admin"

/-- `AppServer::announce` (main.rs:188-195): appends the join line for the
current binding to the history; the indexing panic inside `entity` is
`none`. -/
def announce (s : AppState) (id : Nat) : Option AppState :=
  match lookupK id s.id_to_user with
  | none => none
  | some e =>
      some { s with history := s.history ++
        [e.name ++ " with " ++ roleDebug e.role ++ " privileges has joined"] }

/-- The possible results of the reload path. `ClientDisconnectFailed` and
`authfileError` mirror the source's `Error` enum; the `panicked…` values
model the panics of indexing `clients[id]` in the revocation loop and
`id_to_user[&self.id]` in the role check. -/
inductive ReloadOutcome
  | ok
  | authfileError (e : StoreError)
  | ClientDisconnectFailed (id : Nat)
  | panickedMissingClient (id : Nat)
  | panickedMissingUser (id : Nat)
  deriving DecidableEq

/-- The inner loop of `AppServer::reload` (main.rs:161-168): for each id
listed under a stray key, index the session table (`&clients[id]`, a panic
when absent), force-close the transport (success given by the oracle), and
on success remove the session record and the `id → Entity` binding. A
failed close aborts with `ClientDisconnectFailed id`, keeping every
mutation already made. -/
def revoke_ids (close_ok : Nat → Bool) : List Nat → AppState → ReloadOutcome × AppState
  | [], s => (ReloadOutcome.ok, s)
  | id :: rest, s =>
    match lookupK id s.clients with
    | none => (ReloadOutcome.panickedMissingClient id, s)
    | some _ =>
      if close_ok id then
        revoke_ids close_ok rest
          { s with
            clients := eraseK id s.clients
            id_to_user := eraseK id s.id_to_user }
      else (ReloadOutcome.ClientDisconnectFailed id, s)

/-- The stray loop of `AppServer::reload` (main.rs:154-170): for each stray
key, revoke the ids listed under it in the reverse index (continuing when
the key has no entry) and then drop the key's reverse-index entry. -/
def revoke_strays (close_ok : Nat → Bool) : List Nat → AppState → ReloadOutcome × AppState
  | [], s => (ReloadOutcome.ok, s)
  | k :: rest, s =>
    match lookupK k s.key_data_to_id with
    | none => revoke_strays close_ok rest s
    | some ids =>
      match revoke_ids close_ok ids s with
      | (ReloadOutcome.ok, s1) =>
          revoke_strays close_ok rest
            { s1 with key_data_to_id := eraseK k s1.key_data_to_id }
      | (r, s1) => (r, s1)

/-- `key_data_pool.difference(&new_keychain.key_pool)`: the stray keys of a
reload, the old key pool minus the new one. -/
def strays_of (s : AppState) (nk : Keychain) : List Nat :=
  s.key_data_pool.filter (fun k => decide (k ∉ nk.key_pool))

/-- `AppServer::reload` (main.rs:142-182). The read of `./authfile` is
external (`authfile::read` is not under src/), so its result is passed in;
a read error aborts at once with the error and no state change. Otherwise
the strays are revoked, and only when every revocation succeeded are
`key_data_to_user`, `keychain` and `key_data_pool` replaced by the new
snapshot; on any revocation failure nothing is committed but the
mutations already performed by the loop remain. -/
def reload (s : AppState) (load_result : Except StoreError Keychain)
    (close_ok : Nat → Bool) : ReloadOutcome × AppState :=
  match load_result with
  | Except.error e => (ReloadOutcome.authfileError e, s)
  | Except.ok nk =>
    match revoke_strays close_ok (strays_of s nk) s with
    | (ReloadOutcome.ok, s1) =>
        (ReloadOutcome.ok,
          { s1 with
            key_data_to_user := nk.entities.map (fun e => (e.key_data, e))
            keychain := nk.entities
            key_data_pool := nk.key_pool })
    | (r, s1) => (r, s1)

/-- `AppServer::check_role_and_reload` (main.rs:133-140): index
`id_to_user` by the invoking session's id (a panic when absent); when the
bound entity's role is Admin run `reload`, otherwise do nothing and return
Ok. -/
def check_role_and_reload (s : AppState) (id : Nat)
    (load_result : Except StoreError Keychain) (close_ok : Nat → Bool) :
    ReloadOutcome × AppState :=
  match lookupK id s.id_to_user with
  | none => (ReloadOutcome.panickedMissingUser id, s)
  | some e =>
    if e.role = Role.Admin then reload s load_result close_ok
    else (ReloadOutcome.ok, s)

/-- The Alt+Return branch of `Handler::data` (main.rs:338-357), the spec's
`submit_message`: join the current client's textarea lines with newlines,
clear the textarea, and append "[name]: text" to the history, the name
taken from the current `id → Entity` binding. The `unwrap` on a missing
client and the indexing inside `entity` are panics, modelled by `none`. -/
def submit_message (s : AppState) (id : Nat) : Option AppState :=
  match lookupK id s.clients with
  | none => none
  | some c =>
    match lookupK id s.id_to_user with
    | none => none
    | some e =>
        some { s with
          clients := insertK id { c with textarea := [""] } s.clients
          history := s.history ++
            ["[" ++ e.name ++ "]: " ++ String.intercalate "\n" c.textarea] }

/-- `Handler::pty_request` (main.rs:385-413): build a rect from the
requested width and height truncated to u16 and resize only the current
client's terminal. The `unwrap` on a missing client is a panic, modelled
by `none`. -/
def pty_request (s : AppState) (id : Nat) (col_width row_height : Nat) :
    Option AppState :=
  match lookupK id s.clients with
  | none => none
  | some c =>
      some { s with
        clients :=
          insertK id { c with viewport := (col_width % 65536, row_height % 65536) }
            s.clients }

/-- `impl Drop for AppServer` (main.rs:416-425), the teardown run for every
ended session: it removes only the `clients` entry for the session's id;
`id_to_user` and `key_data_to_id` are not touched. -/
def drop_client (s : AppState) (id : Nat) : AppState :=
  { s with clients := eraseK id s.clients }

/-- The history slice rendered by `AppServer::render` (main.rs:197-242):
`history.iter().rev().take(20).rev()`. -/
def render_history (history : List String) : List String :=
  (history.reverse.take 20).reverse

/-- A history append (`history.push(line)`), as done by `announce` and the
message branch of `data`. -/
def push_history (history : List String) (line : String) : List String :=
  history ++ [line]

/-! ### Association-list map lemmas -/

theorem eraseK_cons {α : Type} (k a : Nat) (b : α) (tl : List (Nat × α)) :
    eraseK k ((a, b) :: tl) =
      if a = k then eraseK k tl else (a, b) :: eraseK k tl := by
  by_cases h : a = k <;> simp [eraseK, List.filter_cons, h]

theorem lookupK_eraseK {α : Type} (k k' : Nat) (l : List (Nat × α)) :
    lookupK k' (eraseK k l) = if k' = k then none else lookupK k' l := by
  induction l with
  | nil => simp [lookupK, eraseK]
  | cons p tl ih =>
    obtain ⟨a, b⟩ := p
    rw [eraseK_cons]
    by_cases hak : a = k
    · subst hak
      rw [if_pos rfl, ih]
      by_cases hk : k' = a
      · simp [hk]
      · have hak' : ¬ a = k' := fun h => hk h.symm
        simp [lookupK, hk, hak']
    · rw [if_neg hak]
      by_cases hak' : a = k'
      · subst hak'
        simp [lookupK, hak]
      · simp [lookupK, hak', ih]

theorem lookupK_eraseK_self {α : Type} (k : Nat) (l : List (Nat × α)) :
    lookupK k (eraseK k l) = none := by
  simp [lookupK_eraseK]

theorem lookupK_eraseK_ne {α : Type} {k k' : Nat} (h : k' ≠ k) (l : List (Nat × α)) :
    lookupK k' (eraseK k l) = lookupK k' l := by
  simp [lookupK_eraseK, h]

theorem lookupK_insertK {α : Type} (k k' : Nat) (v : α) (l : List (Nat × α)) :
    lookupK k' (insertK k v l) = if k = k' then some v else lookupK k' l := by
  by_cases h : k = k'
  · simp [insertK, lookupK, h]
  · simp [insertK, lookupK, h, lookupK_eraseK_ne (fun hk => h hk.symm)]

theorem lookupK_eraseK_some {α : Type} {k k' : Nat} {l : List (Nat × α)} {v : α}
    (h : lookupK k' (eraseK k l) = some v) : lookupK k' l = some v := by
  rw [lookupK_eraseK] at h
  by_cases hk : k' = k
  · simp [hk] at h
  · simpa [hk] using h

/-! ### Claim theorems: store failure, role gate, rendering -/

/-- C3: if reading the backing store fails at the start of a reload, the
reload aborts with the load error and the whole state — snapshot,
key→Entity index, key pool, session table, id→Entity map, reverse index
and history — is returned exactly as it was, so no session is
disconnected. -/
theorem reload_load_failure_spec (s : AppState) (e : StoreError)
    (close_ok : Nat → Bool) :
    reload s (Except.error e) close_ok = (ReloadOutcome.authfileError e, s) := rfl

/-- C4: when the invoking session's bound entity is not Admin (Elevated),
`check_role_and_reload` is a complete no-op: whatever the backing store
would return (the conclusion holds for every load result, so the store is
never consulted), the state is returned unchanged and the outcome is Ok,
not an error. -/
theorem check_role_non_admin_noop (s : AppState) (id : Nat) (e : Entity)
    (load_result : Except StoreError Keychain) (close_ok : Nat → Bool)
    (hbind : lookupK id s.id_to_user = some e) (hrole : e.role ≠ Role.Admin) :
    check_role_and_reload s id load_result close_ok = (ReloadOutcome.ok, s) := by
  simp [check_role_and_reload, hbind, hrole]

/-- Witness for C4 at a concrete state: a Standard-tier invoker makes the
reload gesture a no-op even when the store read would fail. -/
theorem check_role_non_admin_noop_witness :
    check_role_and_reload
      { keychain := [⟨"alice", Role.Standard, 1⟩]
        key_data_pool := [1]
        key_data_to_user := [(1, ⟨"alice", Role.Standard, 1⟩)]
        key_data_to_id := [(1, [1])]
        id_to_user := [(1, ⟨"alice", Role.Standard, 1⟩)]
        clients := [(1, ⟨7, ["hi"], (80, 24)⟩)]
        history := [] }
      1 (Except.error StoreError.unavailable) (fun _ => true) =
      (ReloadOutcome.ok,
        { keychain := [⟨"alice", Role.Standard, 1⟩]
          key_data_pool := [1]
          key_data_to_user := [(1, ⟨"alice", Role.Standard, 1⟩)]
          key_data_to_id := [(1, [1])]
          id_to_user := [(1, ⟨"alice", Role.Standard, 1⟩)]
          clients := [(1, ⟨7, ["hi"], (80, 24)⟩)]
          history := [] }) :=
  check_role_non_admin_noop _ 1 ⟨"alice", Role.Standard, 1⟩ _ _ (by simp [lookupK])
    (by decide)

/-- C9: the rendered slice is exactly the at-most-20 most recent history
entries in history order (`drop (length − 20)`), its length never exceeds
20, and appending a line to the history preserves every existing entry in
place (the old history is an unchanged prefix of the new one). -/
theorem render_history_spec (h : List String) (line : String) :
    render_history h = h.drop (h.length - 20) ∧
    (render_history h).length = min 20 h.length ∧
    push_history h line = h ++ [line] ∧
    (push_history h line).take h.length = h := by
  refine ⟨?_, ?_, rfl, by simp [push_history]⟩
  · rw [render_history, ← List.rtake_eq_reverse_take_reverse, List.rtake]
  · simp [render_history]

/-! ### Lemmas about the revocation loops -/

/-- The inner revocation loop never touches the snapshot fields, the
reverse index, or the history. -/
theorem revoke_ids_fixed (close_ok : Nat → Bool) (ids : List Nat) (s : AppState) :
    (revoke_ids close_ok ids s).2.keychain = s.keychain ∧
    (revoke_ids close_ok ids s).2.key_data_to_user = s.key_data_to_user ∧
    (revoke_ids close_ok ids s).2.key_data_pool = s.key_data_pool ∧
    (revoke_ids close_ok ids s).2.key_data_to_id = s.key_data_to_id ∧
    (revoke_ids close_ok ids s).2.history = s.history := by
  induction ids generalizing s with
  | nil => simp [revoke_ids]
  | cons id rest ih =>
    simp only [revoke_ids]
    cases h : lookupK id s.clients with
    | none => simp
    | some c =>
      cases hclose : close_ok id with
      | false => simp
      | true => simpa using ih _

/-- The inner revocation loop only ever removes `clients` and `id_to_user`
entries: an entry present afterwards was present before, with the same
value. -/
theorem revoke_ids_lookup_some (close_ok : Nat → Bool) (ids : List Nat)
    (s : AppState) (j : Nat) :
    (∀ c, lookupK j (revoke_ids close_ok ids s).2.clients = some c →
       lookupK j s.clients = some c) ∧
    (∀ e, lookupK j (revoke_ids close_ok ids s).2.id_to_user = some e →
       lookupK j s.id_to_user = some e) := by
  induction ids generalizing s with
  | nil => simp [revoke_ids]
  | cons id rest ih =>
    simp only [revoke_ids]
    cases h : lookupK id s.clients with
    | none => simp
    | some c =>
      cases hclose : close_ok id with
      | false => simp
      | true =>
        simp only [if_true]
        constructor
        · intro c' hc'
          exact lookupK_eraseK_some ((ih _).1 c' hc')
        · intro e' he'
          exact lookupK_eraseK_some ((ih _).2 e' he')

/-- A `clients` or `id_to_user` entry already absent stays absent through
the inner revocation loop. -/
theorem revoke_ids_lookup_none (close_ok : Nat → Bool) (ids : List Nat)
    (s : AppState) (j : Nat) :
    (lookupK j s.clients = none →
       lookupK j (revoke_ids close_ok ids s).2.clients = none) ∧
    (lookupK j s.id_to_user = none →
       lookupK j (revoke_ids close_ok ids s).2.id_to_user = none) := by
  constructor
  · intro h
    cases hfin : lookupK j (revoke_ids close_ok ids s).2.clients with
    | none => rfl
    | some c =>
      have := (revoke_ids_lookup_some close_ok ids s j).1 c hfin
      rw [h] at this
      exact absurd this (by simp)
  · intro h
    cases hfin : lookupK j (revoke_ids close_ok ids s).2.id_to_user with
    | none => rfl
    | some e =>
      have := (revoke_ids_lookup_some close_ok ids s j).2 e hfin
      rw [h] at this
      exact absurd this (by simp)

/-- When the inner revocation loop completes, every listed id is gone from
the session table and from the id→Entity map. -/
theorem revoke_ids_ok_removes (close_ok : Nat → Bool) (ids : List Nat)
    (s : AppState) (hok : (revoke_ids close_ok ids s).1 = ReloadOutcome.ok) :
    ∀ j ∈ ids, lookupK j (revoke_ids close_ok ids s).2.clients = none ∧
               lookupK j (revoke_ids close_ok ids s).2.id_to_user = none := by
  induction ids generalizing s with
  | nil => simp
  | cons id rest ih =>
    intro j hj
    simp only [revoke_ids] at hok ⊢
    cases h : lookupK id s.clients with
    | none => rw [h] at hok; exact absurd hok (by simp)
    | some c =>
      rw [h] at hok
      cases hclose : close_ok id with
      | false => rw [hclose] at hok; exact absurd hok (by simp)
      | true =>
        rw [hclose] at hok
        simp only [if_true] at hok ⊢
        rcases List.mem_cons.mp hj with hjid | hjrest
        · subst hjid
          constructor
          · exact (revoke_ids_lookup_none close_ok rest _ j).1
              (lookupK_eraseK_self j s.clients)
          · exact (revoke_ids_lookup_none close_ok rest _ j).2
              (lookupK_eraseK_self j s.id_to_user)
        · exact ih _ hok j hjrest

/-- Sessions whose id is not listed keep their `clients` and `id_to_user`
entries through the inner revocation loop, whatever its outcome. -/
theorem revoke_ids_untouched (close_ok : Nat → Bool) (ids : List Nat)
    (s : AppState) (j : Nat) (hj : j ∉ ids) :
    lookupK j (revoke_ids close_ok ids s).2.clients = lookupK j s.clients ∧
    lookupK j (revoke_ids close_ok ids s).2.id_to_user = lookupK j s.id_to_user := by
  induction ids generalizing s with
  | nil => simp [revoke_ids]
  | cons id rest ih =>
    have hjid : j ≠ id := fun h => hj (h ▸ List.mem_cons_self id rest)
    have hjrest : j ∉ rest := fun h => hj (List.mem_cons_of_mem id h)
    simp only [revoke_ids]
    cases h : lookupK id s.clients with
    | none => simp
    | some c =>
      cases hclose : close_ok id with
      | false => simp
      | true =>
        simp only [if_true]
        rcases ih (s := { s with
          clients := eraseK id s.clients
          id_to_user := eraseK id s.id_to_user }) hjrest with ⟨h1, h2⟩
        refine ⟨h1.trans ?_, h2.trans ?_⟩
        · exact lookupK_eraseK_ne hjid s.clients
        · exact lookupK_eraseK_ne hjid s.id_to_user

/-- If the inner loop reports `ClientDisconnectFailed fid` then the close
oracle indeed failed on `fid`, and `fid` was one of the listed ids. -/
theorem revoke_ids_failed_close (close_ok : Nat → Bool) (ids : List Nat)
    (s : AppState) (fid : Nat)
    (h : (revoke_ids close_ok ids s).1 = ReloadOutcome.ClientDisconnectFailed fid) :
    close_ok fid = false ∧ fid ∈ ids := by
  induction ids generalizing s with
  | nil => simp [revoke_ids] at h
  | cons id rest ih =>
    simp only [revoke_ids] at h
    cases hc : lookupK id s.clients with
    | none => rw [hc] at h; exact absurd h (by simp)
    | some c =>
      rw [hc] at h
      cases hclose : close_ok id with
      | false =>
        rw [hclose] at h
        simp only [Bool.false_eq_true, if_false, ReloadOutcome.ClientDisconnectFailed.injEq] at h
        subst h
        exact ⟨hclose, List.mem_cons_self id rest⟩
      | true =>
        rw [hclose] at h
        simp only [if_true] at h
        rcases ih _ h with ⟨h1, h2⟩
        exact ⟨h1, List.mem_cons_of_mem id h2⟩

/-- Unfolding equation for the stray loop when the head key has no
reverse-index entry. -/
theorem revoke_strays_cons_none (close_ok : Nat → Bool) (k : Nat) (rest : List Nat)
    (s : AppState) (h : lookupK k s.key_data_to_id = none) :
    revoke_strays close_ok (k :: rest) s = revoke_strays close_ok rest s := by
  simp [revoke_strays, h]

/-- Unfolding equation for the stray loop when the head key's ids are all
revoked successfully. -/
theorem revoke_strays_cons_some_ok (close_ok : Nat → Bool) (k : Nat)
    (rest : List Nat) (s : AppState) (ids : List Nat) (s1 : AppState)
    (h : lookupK k s.key_data_to_id = some ids)
    (hr : revoke_ids close_ok ids s = (ReloadOutcome.ok, s1)) :
    revoke_strays close_ok (k :: rest) s =
      revoke_strays close_ok rest
        { s1 with key_data_to_id := eraseK k s1.key_data_to_id } := by
  simp [revoke_strays, h, hr]

/-- Unfolding equation for the stray loop when revoking the head key's ids
fails. -/
theorem revoke_strays_cons_some_err (close_ok : Nat → Bool) (k : Nat)
    (rest : List Nat) (s : AppState) (ids : List Nat) (r : ReloadOutcome)
    (s1 : AppState) (h : lookupK k s.key_data_to_id = some ids)
    (hr : revoke_ids close_ok ids s = (r, s1)) (hne : r ≠ ReloadOutcome.ok) :
    revoke_strays close_ok (k :: rest) s = (r, s1) := by
  cases r with
  | ok => exact absurd rfl hne
  | authfileError e => simp [revoke_strays, h, hr]
  | ClientDisconnectFailed i => simp [revoke_strays, h, hr]
  | panickedMissingClient i => simp [revoke_strays, h, hr]
  | panickedMissingUser i => simp [revoke_strays, h, hr]

/-- `revoke_ids_fixed`, phrased for a destructured run. -/
theorem revoke_ids_eq_fixed (close_ok : Nat → Bool) (ids : List Nat)
    (s : AppState) (r : ReloadOutcome) (s1 : AppState)
    (hr : revoke_ids close_ok ids s = (r, s1)) :
    s1.keychain = s.keychain ∧ s1.key_data_to_user = s.key_data_to_user ∧
    s1.key_data_pool = s.key_data_pool ∧ s1.key_data_to_id = s.key_data_to_id ∧
    s1.history = s.history := by
  have h := revoke_ids_fixed close_ok ids s
  rw [hr] at h
  exact h

/-- `revoke_ids_lookup_some`, phrased for a destructured run. -/
theorem revoke_ids_eq_lookup_some (close_ok : Nat → Bool) (ids : List Nat)
    (s : AppState) (j : Nat) (r : ReloadOutcome) (s1 : AppState)
    (hr : revoke_ids close_ok ids s = (r, s1)) :
    (∀ c, lookupK j s1.clients = some c → lookupK j s.clients = some c) ∧
    (∀ e, lookupK j s1.id_to_user = some e → lookupK j s.id_to_user = some e) := by
  have h := revoke_ids_lookup_some close_ok ids s j
  rw [hr] at h
  exact h

/-- `revoke_ids_untouched`, phrased for a destructured run. -/
theorem revoke_ids_eq_untouched (close_ok : Nat → Bool) (ids : List Nat)
    (s : AppState) (j : Nat) (r : ReloadOutcome) (s1 : AppState)
    (hr : revoke_ids close_ok ids s = (r, s1)) (hj : j ∉ ids) :
    lookupK j s1.clients = lookupK j s.clients ∧
    lookupK j s1.id_to_user = lookupK j s.id_to_user := by
  have h := revoke_ids_untouched close_ok ids s j hj
  rw [hr] at h
  exact h

/-- `revoke_ids_ok_removes`, phrased for a destructured run. -/
theorem revoke_ids_eq_ok_removes (close_ok : Nat → Bool) (ids : List Nat)
    (s : AppState) (s1 : AppState)
    (hr : revoke_ids close_ok ids s = (ReloadOutcome.ok, s1)) :
    ∀ j ∈ ids, lookupK j s1.clients = none ∧ lookupK j s1.id_to_user = none := by
  have h := revoke_ids_ok_removes close_ok ids s (by rw [hr])
  rw [hr] at h
  exact h

/-- The stray loop never touches the snapshot fields or the history,
whatever its outcome. -/
theorem revoke_strays_fixed (close_ok : Nat → Bool) (strays : List Nat)
    (s : AppState) (r : ReloadOutcome) (s2 : AppState)
    (hrun : revoke_strays close_ok strays s = (r, s2)) :
    s2.keychain = s.keychain ∧ s2.key_data_to_user = s.key_data_to_user ∧
    s2.key_data_pool = s.key_data_pool ∧ s2.history = s.history := by
  induction strays generalizing s with
  | nil =>
    simp only [revoke_strays] at hrun
    injection hrun with h1 h2
    subst h2
    exact ⟨rfl, rfl, rfl, rfl⟩
  | cons k rest ih =>
    cases hk : lookupK k s.key_data_to_id with
    | none =>
      rw [revoke_strays_cons_none close_ok k rest s hk] at hrun
      exact ih s hrun
    | some ids =>
      rcases hr : revoke_ids close_ok ids s with ⟨r1, s1⟩
      rcases revoke_ids_eq_fixed close_ok ids s r1 s1 hr with ⟨f1, f2, f3, f4, f5⟩
      by_cases hok : r1 = ReloadOutcome.ok
      · subst hok
        rw [revoke_strays_cons_some_ok close_ok k rest s ids s1 hk hr] at hrun
        rcases ih _ hrun with ⟨i1, i2, i3, i4⟩
        exact ⟨i1.trans f1, i2.trans f2, i3.trans f3, i4.trans f5⟩
      · rw [revoke_strays_cons_some_err close_ok k rest s ids r1 s1 hk hr hok] at hrun
        injection hrun with h1 h2
        subst h2
        exact ⟨f1, f2, f3, f5⟩

/-- The stray loop only ever removes `clients` and `id_to_user` entries. -/
theorem revoke_strays_lookup_some (close_ok : Nat → Bool) (strays : List Nat)
    (s : AppState) (j : Nat) (r : ReloadOutcome) (s2 : AppState)
    (hrun : revoke_strays close_ok strays s = (r, s2)) :
    (∀ c, lookupK j s2.clients = some c → lookupK j s.clients = some c) ∧
    (∀ e, lookupK j s2.id_to_user = some e → lookupK j s.id_to_user = some e) := by
  induction strays generalizing s with
  | nil =>
    simp only [revoke_strays] at hrun
    injection hrun with h1 h2
    subst h2
    exact ⟨fun c hc => hc, fun e he => he⟩
  | cons k rest ih =>
    cases hk : lookupK k s.key_data_to_id with
    | none =>
      rw [revoke_strays_cons_none close_ok k rest s hk] at hrun
      exact ih s hrun
    | some ids =>
      rcases hr : revoke_ids close_ok ids s with ⟨r1, s1⟩
      rcases revoke_ids_eq_lookup_some close_ok ids s j r1 s1 hr with ⟨f1, f2⟩
      by_cases hok : r1 = ReloadOutcome.ok
      · subst hok
        rw [revoke_strays_cons_some_ok close_ok k rest s ids s1 hk hr] at hrun
        rcases ih _ hrun with ⟨i1, i2⟩
        exact ⟨fun c hc => f1 c (i1 c hc), fun e he => f2 e (i2 e he)⟩
      · rw [revoke_strays_cons_some_err close_ok k rest s ids r1 s1 hk hr hok] at hrun
        injection hrun with h1 h2
        subst h2
        exact ⟨f1, f2⟩

/-- A `clients` or `id_to_user` entry already absent stays absent through
the stray loop. -/
theorem revoke_strays_lookup_none (close_ok : Nat → Bool) (strays : List Nat)
    (s : AppState) (j : Nat) (r : ReloadOutcome) (s2 : AppState)
    (hrun : revoke_strays close_ok strays s = (r, s2)) :
    (lookupK j s.clients = none → lookupK j s2.clients = none) ∧
    (lookupK j s.id_to_user = none → lookupK j s2.id_to_user = none) := by
  constructor
  · intro h
    cases hfin : lookupK j s2.clients with
    | none => rfl
    | some c =>
      have := (revoke_strays_lookup_some close_ok strays s j r s2 hrun).1 c hfin
      rw [h] at this
      exact absurd this (by simp)
  · intro h
    cases hfin : lookupK j s2.id_to_user with
    | none => rfl
    | some e =>
      have := (revoke_strays_lookup_some close_ok strays s j r s2 hrun).2 e hfin
      rw [h] at this
      exact absurd this (by simp)

/-- Reverse-index entries of keys outside the stray list are untouched by
the stray loop, whatever its outcome. -/
theorem revoke_strays_kdti_other (close_ok : Nat → Bool) (strays : List Nat)
    (s : AppState) (k' : Nat) (r : ReloadOutcome) (s2 : AppState)
    (hrun : revoke_strays close_ok strays s = (r, s2)) (hk' : k' ∉ strays) :
    lookupK k' s2.key_data_to_id = lookupK k' s.key_data_to_id := by
  induction strays generalizing s with
  | nil =>
    simp only [revoke_strays] at hrun
    injection hrun with h1 h2
    subst h2
    rfl
  | cons k rest ih =>
    have hkk : k' ≠ k := fun h => hk' (h ▸ List.mem_cons_self k rest)
    have hkrest : k' ∉ rest := fun h => hk' (List.mem_cons_of_mem k h)
    cases hk : lookupK k s.key_data_to_id with
    | none =>
      rw [revoke_strays_cons_none close_ok k rest s hk] at hrun
      exact ih s hrun hkrest
    | some ids =>
      rcases hr : revoke_ids close_ok ids s with ⟨r1, s1⟩
      rcases revoke_ids_eq_fixed close_ok ids s r1 s1 hr with ⟨-, -, -, f4, -⟩
      by_cases hok : r1 = ReloadOutcome.ok
      · subst hok
        rw [revoke_strays_cons_some_ok close_ok k rest s ids s1 hk hr] at hrun
        have := ih _ hrun hkrest
        rw [this]
        show lookupK k' (eraseK k s1.key_data_to_id) = lookupK k' s.key_data_to_id
        rw [lookupK_eraseK_ne hkk, f4]
      · rw [revoke_strays_cons_some_err close_ok k rest s ids r1 s1 hk hr hok] at hrun
        injection hrun with h1 h2
        subst h2
        exact f4 ▸ rfl

/-- A session id not listed in the reverse index under any stray key keeps
its `clients` and `id_to_user` entries through the stray loop, whatever its
outcome. -/
theorem revoke_strays_untouched (close_ok : Nat → Bool) (strays : List Nat)
    (s : AppState) (j : Nat) (r : ReloadOutcome) (s2 : AppState)
    (hrun : revoke_strays close_ok strays s = (r, s2))
    (hj : ∀ k ∈ strays, ∀ ids, lookupK k s.key_data_to_id = some ids → j ∉ ids) :
    lookupK j s2.clients = lookupK j s.clients ∧
    lookupK j s2.id_to_user = lookupK j s.id_to_user := by
  induction strays generalizing s with
  | nil =>
    simp only [revoke_strays] at hrun
    injection hrun with h1 h2
    subst h2
    exact ⟨rfl, rfl⟩
  | cons k rest ih =>
    cases hk : lookupK k s.key_data_to_id with
    | none =>
      rw [revoke_strays_cons_none close_ok k rest s hk] at hrun
      exact ih s hrun (fun k'' hm ids hl => hj k'' (List.mem_cons_of_mem k hm) ids hl)
    | some ids =>
      have hjids : j ∉ ids := hj k (List.mem_cons_self k rest) ids hk
      rcases hr : revoke_ids close_ok ids s with ⟨r1, s1⟩
      rcases revoke_ids_eq_untouched close_ok ids s j r1 s1 hr hjids with ⟨u1, u2⟩
      rcases revoke_ids_eq_fixed close_ok ids s r1 s1 hr with ⟨-, -, -, f4, -⟩
      by_cases hok : r1 = ReloadOutcome.ok
      · subst hok
        rw [revoke_strays_cons_some_ok close_ok k rest s ids s1 hk hr] at hrun
        rcases ih (s := { s1 with key_data_to_id := eraseK k s1.key_data_to_id })
          hrun (fun k'' hm ids'' hl => by
            have : lookupK k'' s1.key_data_to_id = some ids'' :=
              lookupK_eraseK_some hl
            rw [f4] at this
            exact hj k'' (List.mem_cons_of_mem k hm) ids'' this)
          with ⟨i1, i2⟩
        exact ⟨i1.trans u1, i2.trans u2⟩
      · rw [revoke_strays_cons_some_err close_ok k rest s ids r1 s1 hk hr hok] at hrun
        injection hrun with h1 h2
        subst h2
        exact ⟨u1, u2⟩

/-- When the stray loop completes, every id listed (in the pre-state) under
a stray key is gone from the session table and the id→Entity map. -/
theorem revoke_strays_ok_removes (close_ok : Nat → Bool) (strays : List Nat)
    (s : AppState) (s2 : AppState)
    (hrun : revoke_strays close_ok strays s = (ReloadOutcome.ok, s2)) :
    ∀ k ∈ strays, ∀ ids, lookupK k s.key_data_to_id = some ids →
      ∀ j ∈ ids, lookupK j s2.clients = none ∧ lookupK j s2.id_to_user = none := by
  induction strays generalizing s with
  | nil => simp
  | cons k rest ih =>
    intro k'' hk'' ids'' hl'' j hj
    cases hk : lookupK k s.key_data_to_id with
    | none =>
      rw [revoke_strays_cons_none close_ok k rest s hk] at hrun
      rcases List.mem_cons.mp hk'' with h | h
      · subst h; rw [hk] at hl''; exact absurd hl'' (by simp)
      · exact ih s hrun k'' h ids'' hl'' j hj
    | some ids =>
      rcases hr : revoke_ids close_ok ids s with ⟨r1, s1⟩
      rcases revoke_ids_eq_fixed close_ok ids s r1 s1 hr with ⟨-, -, -, f4, -⟩
      by_cases hok : r1 = ReloadOutcome.ok
      · subst hok
        rw [revoke_strays_cons_some_ok close_ok k rest s ids s1 hk hr] at hrun
        by_cases hkk : k'' = k
        · subst hkk
          rw [hk] at hl''
          injection hl'' with hids
          subst hids
          have hrem := revoke_ids_eq_ok_removes close_ok ids s s1 hr j hj
          refine ⟨?_, ?_⟩
          · exact (revoke_strays_lookup_none close_ok rest _ j _ s2 hrun).1 hrem.1
          · exact (revoke_strays_lookup_none close_ok rest _ j _ s2 hrun).2 hrem.2
        · have hmem : k'' ∈ rest := by
            rcases List.mem_cons.mp hk'' with h | h
            · exact absurd h hkk
            · exact h
          have hl2 : lookupK k''
              ({ s1 with key_data_to_id := eraseK k s1.key_data_to_id }).key_data_to_id =
              some ids'' := by
            show lookupK k'' (eraseK k s1.key_data_to_id) = some ids''
            rw [lookupK_eraseK_ne hkk, f4]
            exact hl''
          exact ih _ hrun k'' hmem ids'' hl2 j hj
      · rw [revoke_strays_cons_some_err close_ok k rest s ids r1 s1 hk hr hok] at hrun
        injection hrun with h1 h2
        exact absurd h1 hok

/-- If the stray loop reports `ClientDisconnectFailed fid` then the close
oracle failed on `fid`, and `fid` was listed under some stray key of the
pre-state. -/
theorem revoke_strays_failed_close (close_ok : Nat → Bool) (strays : List Nat)
    (s : AppState) (fid : Nat) (s2 : AppState)
    (hrun : revoke_strays close_ok strays s =
      (ReloadOutcome.ClientDisconnectFailed fid, s2)) :
    close_ok fid = false ∧
    ∃ k ∈ strays, ∃ ids, lookupK k s.key_data_to_id = some ids ∧ fid ∈ ids := by
  induction strays generalizing s with
  | nil =>
    simp only [revoke_strays] at hrun
    injection hrun with h1 h2
    exact absurd h1 (by simp)
  | cons k rest ih =>
    cases hk : lookupK k s.key_data_to_id with
    | none =>
      rw [revoke_strays_cons_none close_ok k rest s hk] at hrun
      rcases ih s hrun with ⟨h1, k'', hm, ids'', hl, hmem⟩
      exact ⟨h1, k'', List.mem_cons_of_mem k hm, ids'', hl, hmem⟩
    | some ids =>
      rcases hr : revoke_ids close_ok ids s with ⟨r1, s1⟩
      rcases revoke_ids_eq_fixed close_ok ids s r1 s1 hr with ⟨-, -, -, f4, -⟩
      by_cases hok : r1 = ReloadOutcome.ok
      · subst hok
        rw [revoke_strays_cons_some_ok close_ok k rest s ids s1 hk hr] at hrun
        rcases ih _ hrun with ⟨h1, k'', hm, ids'', hl, hmem⟩
        have hkk : ¬ k'' = k := by
          intro hkeq
          subst hkeq
          have hl' : lookupK k'' (eraseK k'' s1.key_data_to_id) = some ids'' := hl
          rw [lookupK_eraseK_self] at hl'
          exact absurd hl' (by simp)
        have hl' : lookupK k'' s.key_data_to_id = some ids'' := by
          have : lookupK k'' s1.key_data_to_id = some ids'' :=
            lookupK_eraseK_some hl
          rwa [f4] at this
        exact ⟨h1, k'', List.mem_cons_of_mem k hm, ids'', hl', hmem⟩
      · rw [revoke_strays_cons_some_err close_ok k rest s ids r1 s1 hk hr hok] at hrun
        injection hrun with h1 h2
        subst h1
        subst h2
        rcases revoke_ids_failed_close close_ok ids s fid (by rw [hr]) with ⟨c1, c2⟩
        exact ⟨c1, k, List.mem_cons_self k rest, ids, hk, c2⟩

/-- Unfolding equation for `reload` when every revocation succeeds: the new
snapshot is committed. -/
theorem reload_ok_eq (s : AppState) (nk : Keychain) (close_ok : Nat → Bool)
    (s1 : AppState)
    (hrs : revoke_strays close_ok (strays_of s nk) s = (ReloadOutcome.ok, s1)) :
    reload s (Except.ok nk) close_ok =
      (ReloadOutcome.ok,
        { s1 with
          key_data_to_user := nk.entities.map (fun e => (e.key_data, e))
          keychain := nk.entities
          key_data_pool := nk.key_pool }) := by
  simp [reload, hrs]

/-- Unfolding equation for `reload` when the stray loop fails: nothing is
committed; the loop's result is returned as is. -/
theorem reload_err_eq (s : AppState) (nk : Keychain) (close_ok : Nat → Bool)
    (r : ReloadOutcome) (s1 : AppState)
    (hrs : revoke_strays close_ok (strays_of s nk) s = (r, s1))
    (hne : r ≠ ReloadOutcome.ok) :
    reload s (Except.ok nk) close_ok = (r, s1) := by
  cases r with
  | ok => exact absurd rfl hne
  | authfileError e => simp [reload, hrs]
  | ClientDisconnectFailed i => simp [reload, hrs]
  | panickedMissingClient i => simp [reload, hrs]
  | panickedMissingUser i => simp [reload, hrs]

/-- Membership in the computed stray set is exactly "in the old key pool
and not in the new one". -/
theorem mem_strays_of (s : AppState) (nk : Keychain) (k : Nat) :
    k ∈ strays_of s nk ↔ k ∈ s.key_data_pool ∧ k ∉ nk.key_pool := by
  simp [strays_of]


/-- C2: for every committed reload, the stray set is the old key pool minus
the new one; every id listed in the reverse index under a stray key is
removed from the session table and the id→Entity map; the post-reload
key→Entity index's key set equals the new key pool (which is the committed
pool); and no surviving session is bound to a key outside the new pool.
`hwf` is the spec's snapshot invariant for the freshly loaded keychain
(`authfile::read` is not under src/); `hlive` says each live session's id
is recorded in the reverse index under its bound entity's pooled key. -/
theorem reload_committed_spec (s : AppState) (nk : Keychain)
    (close_ok : Nat → Bool) (s' : AppState)
    (hrun : reload s (Except.ok nk) close_ok = (ReloadOutcome.ok, s'))
    (hwf : ∀ k, k ∈ nk.key_pool ↔ k ∈ nk.entities.map Entity.key_data)
    (hlive : ∀ id c, lookupK id s.clients = some c →
       ∃ e, lookupK id s.id_to_user = some e ∧ e.key_data ∈ s.key_data_pool ∧
            id ∈ (lookupK e.key_data s.key_data_to_id).getD []) :
    (∀ k, k ∈ strays_of s nk ↔ (k ∈ s.key_data_pool ∧ k ∉ nk.key_pool)) ∧
    (∀ k, k ∈ s.key_data_pool → k ∉ nk.key_pool →
       ∀ ids, lookupK k s.key_data_to_id = some ids →
         ∀ id ∈ ids, lookupK id s'.clients = none ∧ lookupK id s'.id_to_user = none) ∧
    (∀ k, k ∈ s'.key_data_to_user.map Prod.fst ↔ k ∈ s'.key_data_pool) ∧
    s'.key_data_pool = nk.key_pool ∧
    (∀ id c e, lookupK id s'.clients = some c → lookupK id s'.id_to_user = some e →
       e.key_data ∈ nk.key_pool) := by
  rcases hrs : revoke_strays close_ok (strays_of s nk) s with ⟨r1, s1⟩
  by_cases hok : r1 = ReloadOutcome.ok
  · subst hok
    rw [reload_ok_eq s nk close_ok s1 hrs] at hrun
    injection hrun with h1 h2
    subst h2
    refine ⟨fun k => mem_strays_of s nk k, ?_, ?_, rfl, ?_⟩
    · intro k hpool hnot ids hl id hid'
      have hmem : k ∈ strays_of s nk := (mem_strays_of s nk k).mpr ⟨hpool, hnot⟩
      exact revoke_strays_ok_removes close_ok (strays_of s nk) s s1 hrs
        k hmem ids hl id hid'
    · intro k
      show k ∈ (nk.entities.map (fun e => (e.key_data, e))).map Prod.fst ↔
        k ∈ nk.key_pool
      rw [List.map_map]
      have hcomp : (Prod.fst ∘ fun e : Entity => (e.key_data, e)) = Entity.key_data :=
        rfl
      rw [hcomp]
      exact (hwf k).symm
    · intro id c e hc he
      have hc1 : lookupK id s1.clients = some c := hc
      have he1 : lookupK id s1.id_to_user = some e := he
      have hc0 : lookupK id s.clients = some c :=
        (revoke_strays_lookup_some close_ok (strays_of s nk) s id _ s1 hrs).1 c hc1
      have he0 : lookupK id s.id_to_user = some e :=
        (revoke_strays_lookup_some close_ok (strays_of s nk) s id _ s1 hrs).2 e he1
      rcases hlive id c hc0 with ⟨e1, he2, hpool, hrev⟩
      have hee : e1 = e := by
        rw [he0] at he2
        injection he2 with hval
        exact hval.symm
      subst hee
      by_cases hnew : e1.key_data ∈ nk.key_pool
      · exact hnew
      · exfalso
        cases hrl : lookupK e1.key_data s.key_data_to_id with
        | none => rw [hrl] at hrev; simp at hrev
        | some ids =>
          rw [hrl] at hrev
          have hmem : e1.key_data ∈ strays_of s nk :=
            (mem_strays_of s nk e1.key_data).mpr ⟨hpool, hnew⟩
          have hgone := revoke_strays_ok_removes close_ok (strays_of s nk) s s1 hrs
            e1.key_data hmem ids hrl id (by simpa using hrev)
          rw [hgone.1] at hc1
          exact absurd hc1 (by simp)
  · rw [reload_err_eq s nk close_ok r1 s1 hrs hok] at hrun
    injection hrun with h1 h2
    exact absurd h1 hok

/-- Scenario A's standard-tier entity: alice holding keyA (1). -/
def aliceE : Entity := ⟨"alice", Role.Standard, 1⟩

/-- Scenario A's elevated entity: bob holding keyB (2). -/
def bobE : Entity := ⟨"bob", Role.Admin, 2⟩

/-- A small concrete client record. -/
def cW : Client := ⟨5, ["hello"], (80, 24)⟩

/-- Scenario A's state: alice connected as session 1, bob as session 2. -/
def sA : AppState :=
  ⟨[aliceE, bobE], [1, 2], [(1, aliceE), (2, bobE)], [(1, [1]), (2, [2])],
   [(1, aliceE), (2, bobE)], [(1, cW), (2, cW)], []⟩

/-- Scenario A's new keychain after keyA is removed from the store. -/
def nkA : Keychain := ⟨[bobE], [2]⟩

/-- A transport on which every forced close succeeds. -/
def ckT : Nat → Bool := fun _ => true

/-- Witness for C2 at Scenario A: after bob's reload removes keyA, alice's
session 1 is gone from the session table and the id→Entity map, and the
committed key pool is exactly the new one. -/
theorem reload_committed_spec_witness :
    lookupK 1 (reload sA (Except.ok nkA) ckT).2.clients = none ∧
    lookupK 1 (reload sA (Except.ok nkA) ckT).2.id_to_user = none ∧
    (reload sA (Except.ok nkA) ckT).2.key_data_pool = [2] := by
  have h := reload_committed_spec sA nkA ckT (reload sA (Except.ok nkA) ckT).2
    (by decide)
    (fun k => by constructor <;> (intro hk; simpa [nkA, bobE] using hk))
    (by
      intro id c hc
      by_cases h1 : (1 : Nat) = id
      · refine ⟨aliceE, ?_, by simp [aliceE, sA], by simp [← h1, aliceE, sA, lookupK]⟩
        simp [sA, lookupK, ← h1, aliceE]
      · by_cases h2 : (2 : Nat) = id
        · refine ⟨bobE, ?_, by simp [bobE, sA], by simp [← h2, bobE, sA, lookupK]⟩
          simp [sA, lookupK, ← h2, bobE, h1]
        · exfalso
          simp [sA, lookupK, h1, h2] at hc)
  have hgone := h.2.1 1 (by decide) (by decide) [1] (by decide) 1 (by decide)
  exact ⟨hgone.1, hgone.2, h.2.2.2.1⟩

/-- C1 (amended): when a forced disconnect fails mid-reload, the snapshot
is not committed — the keychain, key→Entity index, key pool and history
keep their old values — the reported id is one whose close genuinely
failed and which was listed under some stray key; every session id not
listed under any stray key keeps its session record and its id→Entity
binding; and the reverse-index entry of every non-stray key is unchanged.
(Sessions listed under stray keys and processed before the failure are
already disconnected and removed; the original claim's stronger "no
session other than the failing one is affected" is refuted by
`reload_revocation_failure_counterexample`.) -/
theorem reload_revocation_failure_spec (s : AppState) (nk : Keychain)
    (close_ok : Nat → Bool) (fid : Nat) (s' : AppState)
    (hrun : reload s (Except.ok nk) close_ok =
      (ReloadOutcome.ClientDisconnectFailed fid, s')) :
    s'.keychain = s.keychain ∧
    s'.key_data_to_user = s.key_data_to_user ∧
    s'.key_data_pool = s.key_data_pool ∧
    s'.history = s.history ∧
    close_ok fid = false ∧
    (∃ k, k ∈ s.key_data_pool ∧ k ∉ nk.key_pool ∧
       ∃ ids, lookupK k s.key_data_to_id = some ids ∧ fid ∈ ids) ∧
    (∀ j, (∀ k, k ∈ s.key_data_pool → k ∉ nk.key_pool →
            ∀ ids, lookupK k s.key_data_to_id = some ids → j ∉ ids) →
       lookupK j s'.clients = lookupK j s.clients ∧
       lookupK j s'.id_to_user = lookupK j s.id_to_user) ∧
    (∀ k, k ∈ nk.key_pool ∨ k ∉ s.key_data_pool →
       lookupK k s'.key_data_to_id = lookupK k s.key_data_to_id) := by
  rcases hrs : revoke_strays close_ok (strays_of s nk) s with ⟨r1, s1⟩
  by_cases hok : r1 = ReloadOutcome.ok
  · subst hok
    rw [reload_ok_eq s nk close_ok s1 hrs] at hrun
    injection hrun with h1 h2
    exact absurd h1 (by simp)
  · rw [reload_err_eq s nk close_ok r1 s1 hrs hok] at hrun
    injection hrun with h1 h2
    subst h1
    subst h2
    rcases revoke_strays_fixed close_ok (strays_of s nk) s _ s1 hrs
      with ⟨f1, f2, f3, f4⟩
    rcases revoke_strays_failed_close close_ok (strays_of s nk) s fid s1 hrs
      with ⟨c1, k, hkmem, ids, hkl, hfmem⟩
    rcases (mem_strays_of s nk k).mp hkmem with ⟨hkpool, hknot⟩
    refine ⟨f1, f2, f3, f4, c1, ⟨k, hkpool, hknot, ids, hkl, hfmem⟩, ?_, ?_⟩
    · intro j hj
      exact revoke_strays_untouched close_ok (strays_of s nk) s j _ s1 hrs
        (fun k'' hm ids'' hl'' => by
          rcases (mem_strays_of s nk k'').mp hm with ⟨hp, hn⟩
          exact hj k'' hp hn ids'' hl'')
    · intro k'' hk''
      refine revoke_strays_kdti_other close_ok (strays_of s nk) s k'' _ s1 hrs ?_
      intro hmem
      rcases (mem_strays_of s nk k'').mp hmem with ⟨hp, hn⟩
      rcases hk'' with h | h
      · exact hn h
      · exact h hp

/-- The entity of the C1 counterexample: eve holds key 1, shared by two
sessions. -/
def eveE : Entity := ⟨"eve", Role.Standard, 1⟩

/-- The state of the C1 counterexample: sessions 1 and 2 both authenticated
under key 1, which the new snapshot drops. -/
def sCx : AppState :=
  ⟨[eveE], [1], [(1, eveE)], [(1, [1, 2])], [(1, eveE), (2, eveE)],
   [(1, cW), (2, cW)], []⟩

/-- The new keychain of the C1 counterexample: empty, so key 1 is stray. -/
def nkCx : Keychain := ⟨[], []⟩

/-- The close oracle of the C1 counterexample: closing session 1 succeeds,
closing session 2 fails. -/
def ckCx : Nat → Bool := fun j => decide (j = 1)

/-- Counterexample to C1 as stated: the reload fails reporting session 2,
yet session 1 — a session not named in the failure — has lost its session
record and its id→Entity binding, while the registry still lists its key. -/
theorem reload_revocation_failure_counterexample :
    (reload sCx (Except.ok nkCx) ckCx).1 = ReloadOutcome.ClientDisconnectFailed 2 ∧
    lookupK 1 sCx.clients = some cW ∧
    lookupK 1 sCx.id_to_user = some eveE ∧
    lookupK 1 (reload sCx (Except.ok nkCx) ckCx).2.clients = none ∧
    lookupK 1 (reload sCx (Except.ok nkCx) ckCx).2.id_to_user = none := by
  decide

/-- Witness for the amended C1 at the counterexample scenario: the snapshot
is not committed (the key pool keeps its old value), and the reported
session 2 is one whose forced close failed. -/
theorem reload_revocation_failure_spec_witness :
    (reload sCx (Except.ok nkCx) ckCx).2.key_data_pool = sCx.key_data_pool ∧
    ckCx 2 = false := by
  have h := reload_revocation_failure_spec sCx nkCx ckCx 2
    (reload sCx (Except.ok nkCx) ckCx).2 (by decide)
  exact ⟨h.2.2.1, h.2.2.2.2.1⟩

/-- C5, demonstrating the code bug: tearing down session 1 (the `Drop`
impl) removes only its `clients` entry; its id→Entity binding and its
reverse-index entry under key 1 survive the teardown, contradicting the
spec's `close(id)` contract — and a later reload that finds the stale id 1
under a stray key would panic indexing `clients[1]`. -/
theorem drop_client_stale_state :
    lookupK 1 (drop_client sA 1).clients = none ∧
    lookupK 1 (drop_client sA 1).id_to_user = some aliceE ∧
    1 ∈ (lookupK 1 (drop_client sA 1).key_data_to_id).getD [] ∧
    (revoke_ids ckT [1] (drop_client sA 1)).1 =
      ReloadOutcome.panickedMissingClient 1 := by
  decide

/-- C6: at authentication, a key found in the key→Entity index yields
accept, records the id→Entity binding, and appends the id to that key's
reverse-index entry, touching nothing else; a key not found yields reject
with the state returned exactly unchanged. -/
theorem auth_publickey_spec (s : AppState) (id key : Nat) :
    (∀ e, lookupK key s.key_data_to_user = some e →
       (auth_publickey s id key).1 = Auth.Accept ∧
       entity (auth_publickey s id key).2 id = some e ∧
       lookupK key (auth_publickey s id key).2.key_data_to_id =
         some (((lookupK key s.key_data_to_id).getD []) ++ [id]) ∧
       (auth_publickey s id key).2.clients = s.clients ∧
       (auth_publickey s id key).2.keychain = s.keychain ∧
       (auth_publickey s id key).2.key_data_pool = s.key_data_pool ∧
       (auth_publickey s id key).2.key_data_to_user = s.key_data_to_user ∧
       (auth_publickey s id key).2.history = s.history) ∧
    (lookupK key s.key_data_to_user = none →
       auth_publickey s id key = (Auth.Reject, s)) := by
  constructor
  · intro e he
    refine ⟨?_, ?_, ?_, ?_, ?_, ?_, ?_, ?_⟩
    · simp [auth_publickey, he]
    · simp only [auth_publickey, he]
      show lookupK id (insertK id e s.id_to_user) = some e
      rw [lookupK_insertK]
      simp
    · simp only [auth_publickey, he]
      show lookupK key
        (insertK key (((lookupK key s.key_data_to_id).getD []) ++ [id])
          s.key_data_to_id) = _
      rw [lookupK_insertK]
      simp
    · simp [auth_publickey, he]
    · simp [auth_publickey, he]
    · simp [auth_publickey, he]
    · simp [auth_publickey, he]
    · simp [auth_publickey, he]
  · intro he
    simp [auth_publickey, he]

/-- Witness for C6: in Scenario A's state, a new session 3 offering keyA is
accepted and bound to alice with its id appended under keyA, while an
unknown key 7 is rejected with no state created. -/
theorem auth_publickey_spec_witness :
    (auth_publickey sA 3 1).1 = Auth.Accept ∧
    entity (auth_publickey sA 3 1).2 3 = some aliceE ∧
    lookupK 1 (auth_publickey sA 3 1).2.key_data_to_id = some [1, 3] ∧
    auth_publickey sA 3 7 = (Auth.Reject, sA) := by
  have h1 := (auth_publickey_spec sA 3 1).1 aliceE (by decide)
  have h2 := (auth_publickey_spec sA 3 7).2 (by decide)
  exact ⟨h1.1, h1.2.1, h1.2.2.1.trans (by decide), h2⟩

/-- C7: submitting a message from a live, bound session appends exactly
"[name]: text" to the history — the name read from the session's current
id→Entity binding at submission time — clears that session's input buffer,
and leaves every other session's record and all other state unchanged. -/
theorem submit_message_spec (s : AppState) (id : Nat) (c : Client) (e : Entity)
    (hc : lookupK id s.clients = some c) (he : lookupK id s.id_to_user = some e) :
    ∃ s', submit_message s id = some s' ∧
      s'.history = s.history ++
        ["[" ++ e.name ++ "]: " ++ String.intercalate "\n" c.textarea] ∧
      lookupK id s'.clients = some { c with textarea := [""] } ∧
      (∀ j, j ≠ id → lookupK j s'.clients = lookupK j s.clients) ∧
      s'.id_to_user = s.id_to_user ∧
      s'.key_data_to_id = s.key_data_to_id ∧
      s'.key_data_to_user = s.key_data_to_user ∧
      s'.key_data_pool = s.key_data_pool ∧
      s'.keychain = s.keychain := by
  refine ⟨{ s with
      clients := insertK id { c with textarea := [""] } s.clients
      history := s.history ++
        ["[" ++ e.name ++ "]: " ++ String.intercalate "\n" c.textarea] },
    ?_, rfl, ?_, ?_, rfl, rfl, rfl, rfl, rfl⟩
  · simp [submit_message, hc, he]
  · show lookupK id (insertK id { c with textarea := [""] } s.clients) = _
    rw [lookupK_insertK]
    simp
  · intro j hj
    show lookupK j (insertK id { c with textarea := [""] } s.clients) =
      lookupK j s.clients
    rw [lookupK_insertK]
    exact if_neg (fun h2 => hj h2.symm)

/-- Witness for C7: alice's session 1 submits its buffer "hello"; the
history gains exactly "[alice]: hello". -/
theorem submit_message_spec_witness :
    ∃ s', submit_message sA 1 = some s' ∧ s'.history = ["[alice]: hello"] := by
  rcases submit_message_spec sA 1 cW aliceE (by decide) (by decide) with
    ⟨s', h1, h2, -, -, -, -, -, -, -⟩
  exact ⟨s', h1, h2.trans (by decide)⟩

/-- C8 (amended): a resize for an id present in the session table updates
only that session's viewport (width and height truncated to u16) and
leaves every other session and all registry state unchanged; a resize for
an id absent from the session table panics on the `unwrap` (modelled by
`none`) rather than being a silent no-op. -/
theorem pty_request_spec (s : AppState) (id w h : Nat) :
    (lookupK id s.clients = none → pty_request s id w h = none) ∧
    (∀ c, lookupK id s.clients = some c →
       ∃ s', pty_request s id w h = some s' ∧
         lookupK id s'.clients =
           some { c with viewport := (w % 65536, h % 65536) } ∧
         (∀ j, j ≠ id → lookupK j s'.clients = lookupK j s.clients) ∧
         s'.id_to_user = s.id_to_user ∧
         s'.key_data_to_id = s.key_data_to_id ∧
         s'.key_data_to_user = s.key_data_to_user ∧
         s'.key_data_pool = s.key_data_pool ∧
         s'.keychain = s.keychain ∧
         s'.history = s.history) := by
  constructor
  · intro hc
    simp [pty_request, hc]
  · intro c hc
    refine ⟨{ s with
        clients := insertK id { c with viewport := (w % 65536, h % 65536) }
          s.clients },
      ?_, ?_, ?_, rfl, rfl, rfl, rfl, rfl, rfl⟩
    · simp [pty_request, hc]
    · show lookupK id
        (insertK id { c with viewport := (w % 65536, h % 65536) } s.clients) = _
      rw [lookupK_insertK]
      simp
    · intro j hj
      show lookupK j
        (insertK id { c with viewport := (w % 65536, h % 65536) } s.clients) =
        lookupK j s.clients
      rw [lookupK_insertK]
      exact if_neg (fun h2 => hj h2.symm)

/-- A state with an empty session table (and no bindings). -/
def sEmpty : AppState := ⟨[aliceE], [1], [(1, aliceE)], [], [], [], []⟩

/-- Counterexample to C8 as stated: a resize event for the unknown session
id 1 does not leave the state unchanged without error — the handler's
`unwrap` panics (modelled by `none`), so the result is not the claimed
silent no-op. -/
theorem pty_request_unknown_counterexample :
    pty_request sEmpty 1 80 24 = none ∧
    pty_request sEmpty 1 80 24 ≠ some sEmpty := by
  decide

/-- Witness for the amended C8: the unknown id panics, and a resize of
alice's live session 1 updates exactly its viewport. -/
theorem pty_request_spec_witness :
    pty_request sEmpty 1 80 24 = none ∧
    ∃ s', pty_request sA 1 100 40 = some s' ∧
      lookupK 1 s'.clients = some { cW with viewport := (100, 40) } := by
  refine ⟨(pty_request_spec sEmpty 1 80 24).1 (by decide), ?_⟩
  rcases (pty_request_spec sA 1 100 40).2 cW (by decide) with
    ⟨s', h1, h2, -, -, -, -, -, -, -⟩
  exact ⟨s', h1, h2.trans (by decide)⟩

/-- An id never bound in `id_to_user` stays unbound through a whole reload,
whatever its outcome. -/
theorem reload_entity_none (s : AppState) (id : Nat)
    (hnone : lookupK id s.id_to_user = none)
    (lr : Except StoreError Keychain) (ck : Nat → Bool) :
    lookupK id (reload s lr ck).2.id_to_user = none := by
  cases lr with
  | error e => exact hnone
  | ok nk =>
    rcases hrs : revoke_strays ck (strays_of s nk) s with ⟨r1, s1⟩
    by_cases hok : r1 = ReloadOutcome.ok
    · subst hok
      rw [reload_ok_eq s nk ck s1 hrs]
      exact (revoke_strays_lookup_none ck (strays_of s nk) s id _ s1 hrs).2 hnone
    · rw [reload_err_eq s nk ck r1 s1 hrs hok]
      exact (revoke_strays_lookup_none ck (strays_of s nk) s id _ s1 hrs).2 hnone

/-- C10: the session-entity lookup (`entity`, used by the reload gate, the
join announcement and message attribution) indexes `id_to_user` directly
with no fallback. For an id never authenticated it yields nothing, and
every operation other than `auth_publickey` — message submission, the join
announcement, resize, teardown, reload and the reload gate — preserves
that; a successful authentication is exactly what makes the lookup total,
after which it returns the entity recorded at that authentication. -/
theorem entity_lookup_spec (s : AppState) (id : Nat)
    (hnone : entity s id = none) :
    (∀ j key e, lookupK key s.key_data_to_user = some e →
       entity (auth_publickey s j key).2 id =
         if j = id then some e else none) ∧
    (∀ j s', submit_message s j = some s' → entity s' id = none) ∧
    (∀ j s', announce s j = some s' → entity s' id = none) ∧
    (∀ j w h s', pty_request s j w h = some s' → entity s' id = none) ∧
    (∀ j, entity (drop_client s j) id = none) ∧
    (∀ lr ck, entity (reload s lr ck).2 id = none) ∧
    (∀ j lr ck, entity (check_role_and_reload s j lr ck).2 id = none) := by
  have hn : lookupK id s.id_to_user = none := hnone
  refine ⟨?_, ?_, ?_, ?_, ?_, ?_, ?_⟩
  · intro j key e he
    simp only [auth_publickey, he]
    show lookupK id (insertK j e s.id_to_user) = _
    rw [lookupK_insertK]
    by_cases hji : j = id
    · simp [hji]
    · simp [hji, hn]
  · intro j s' h
    cases hc : lookupK j s.clients with
    | none => simp [submit_message, hc] at h
    | some c =>
      cases hu : lookupK j s.id_to_user with
      | none => simp [submit_message, hc, hu] at h
      | some e =>
        simp only [submit_message, hc, hu, Option.some.injEq] at h
        subst h
        exact hn
  · intro j s' h
    cases hu : lookupK j s.id_to_user with
    | none => simp [announce, hu] at h
    | some e =>
      simp only [announce, hu, Option.some.injEq] at h
      subst h
      exact hn
  · intro j w h' s' h
    cases hc : lookupK j s.clients with
    | none => simp [pty_request, hc] at h
    | some c =>
      simp only [pty_request, hc, Option.some.injEq] at h
      subst h
      exact hn
  · intro j
    exact hn
  · intro lr ck
    exact reload_entity_none s id hn lr ck
  · intro j lr ck
    cases hu : lookupK j s.id_to_user with
    | none => simp only [check_role_and_reload, hu]; exact hn
    | some e =>
      simp only [check_role_and_reload, hu]
      by_cases hrole : e.role = Role.Admin
      · simp only [hrole, if_true]
        exact reload_entity_none s id hn lr ck
      · simp only [hrole, if_false]
        exact hn

/-- Witness for C10: in a state with no bindings, session 9's entity lookup
is made total exactly by its successful authentication under the pooled
key 1, returning alice; a teardown of some other session keeps id 9
unbound. -/
theorem entity_lookup_spec_witness :
    entity (auth_publickey sEmpty 9 1).2 9 = some aliceE ∧
    entity (drop_client sEmpty 3) 9 = none := by
  have h := entity_lookup_spec sEmpty 9 (by decide)
  refine ⟨?_, h.2.2.2.2.1 3⟩
  have h1 := h.1 9 1 aliceE (by decide)
  simpa using h1
